import Mathlib

/-!
Shallow embedding of `volo_watch_once.py` (the volo-bot3 watcher script):
string normalisation, JSON serialisation, the deep-traversal event extractor,
the filter chain, SHA-256 based stable ids, fail-soft persistence, the
notification dispatcher and the best-effort signup flow, together with
theorems settling the specification claims about them.

Python's machine-level behaviours are made explicit: exceptions become
`Except`, the file system and the page-automation engine become explicit
outcome records, and `try/except/finally` blocks become explicit matches.
-/

namespace Volo

/-! ## Python string primitives (`str.lower`, `\s`, `re.sub`, `in`, `startswith`) -/

/-- ASCII lowering, as applied by `str.lower()` to the characters the script
manipulates. -/
def toLowerAscii (c : Char) : Char :=
  if 'A' ≤ c ∧ c ≤ 'Z' then Char.ofNat (c.toNat + 32) else c

/-- Lower-case every character of a string (`str.lower()`). -/
def lowerStr (s : String) : String :=
  String.mk (s.data.map toLowerAscii)

/-- Characters matched by the regex class `\s` on the inputs the script sees
(ASCII whitespace plus the common Unicode whitespace code points). -/
def isPySpace (c : Char) : Bool :=
  c ∈ [' ', '\t', '\n', '\r', '\x0b', '\x0c',
       '\x1c', '\x1d', '\x1e', '\x1f', '\x85', '\xa0',
       ' ', ' ', ' ', ' ', ' ', ' ', ' ',
       ' ', ' ', ' ', ' ', ' ', ' ', ' ',
       ' ', ' ', '　']

mutual
/-- Replace every maximal run of whitespace by a single space
(`re.sub(r"\s+", " ", text)`): scanning state outside a whitespace run. -/
def collapseWs : List Char → List Char
  | [] => []
  | c :: t => if isPySpace c then ' ' :: collapseAfterWs t else c :: collapseWs t
/-- Scanning state inside a whitespace run whose single replacement space has
already been emitted. -/
def collapseAfterWs : List Char → List Char
  | [] => []
  | c :: t => if isPySpace c then collapseAfterWs t else c :: collapseWs t
end

/-- Strip whitespace from both ends (`str.strip()`). -/
def stripChars (l : List Char) : List Char :=
  ((l.dropWhile isPySpace).reverse.dropWhile isPySpace).reverse

/-- Model of `normalize(text)` from the script: collapse whitespace runs to one space,
strip, lower-case. -/
def normalize (s : String) : String :=
  String.mk ((stripChars (collapseWs s.data)).map toLowerAscii)

/-- Does `needle` start `hay`? (character-list version of `str.startswith`). -/
def startsWithChars : List Char → List Char → Bool
  | x :: xs, y :: ys => x == y && startsWithChars xs ys
  | [], _ => true
  | _ :: _, [] => false

/-- Substring search over character lists, the semantics of Python's
`needle in hay` for strings. -/
def containsSub (hay needle : List Char) : Bool :=
  if startsWithChars needle hay then true
  else
    match hay with
    | [] => false
    | _ :: t => containsSub t needle

/-- Python's `needle in hay` on `str` values. -/
def pyIn (needle hay : String) : Bool :=
  containsSub hay.data needle.data

theorem startsWithChars_iff (needle hay : List Char) :
    startsWithChars needle hay = true ↔ ∃ r, hay = needle ++ r := by
  induction needle generalizing hay with
  | nil => simp [startsWithChars]
  | cons a as ih =>
    cases hay with
    | nil => simp [startsWithChars]
    | cons b bs =>
      simp only [startsWithChars, Bool.and_eq_true, beq_iff_eq, ih,
        List.cons_append, List.cons.injEq]
      constructor
      · rintro ⟨rfl, r, rfl⟩; exact ⟨r, rfl, rfl⟩
      · rintro ⟨r, rfl, rfl⟩; exact ⟨rfl, r, rfl⟩

theorem containsSub_iff (hay needle : List Char) :
    containsSub hay needle = true ↔ ∃ l r, hay = l ++ needle ++ r := by
  induction hay with
  | nil =>
    rw [containsSub]
    constructor
    · intro h
      split at h
      · rename_i hp
        rcases (startsWithChars_iff _ _).1 hp with ⟨r, hr⟩
        exact ⟨[], r, by simpa using hr⟩
      · simp at h
    · rintro ⟨l, r, hl⟩
      have : l = [] ∧ needle = [] := by
        rcases List.append_eq_nil.mp (List.append_eq_nil.mp hl.symm).1 with ⟨h1, h2⟩
        exact ⟨h1, h2⟩
      rcases this with ⟨rfl, rfl⟩
      simp [containsSub, startsWithChars]
  | cons c t ih =>
    rw [containsSub]
    split
    · rename_i hp
      rcases (startsWithChars_iff _ _).1 hp with ⟨r, hr⟩
      simp only [true_iff]
      exact ⟨[], r, by simpa using hr⟩
    · rename_i hp
      rw [ih]
      constructor
      · rintro ⟨l, r, rfl⟩
        exact ⟨c :: l, r, by simp⟩
      · rintro ⟨l, r, hl⟩
        cases l with
        | nil =>
          exfalso
          apply hp
          rw [startsWithChars_iff]
          exact ⟨r, by simpa using hl⟩
        | cons x xs =>
          simp only [List.cons_append, List.cons.injEq] at hl
          exact ⟨xs, r, hl.2⟩

/-! ## JSON values (the payloads `json.loads` hands to the script) -/

/-- A parsed JSON value: the payload shape `extract_events` traverses.
Numbers are modelled as integers (the identifiers and times the script
handles are strings; no claim depends on float formatting). -/
inductive Json where
  | null : Json
  | bool (b : Bool) : Json
  | num (n : Int) : Json
  | str (s : String) : Json
  | arr (elems : List Json) : Json
  | obj (kvs : List (String × Json)) : Json

mutual
/-- Python `==` on the JSON values the script compares (structural equality). -/
def jsonBeq : Json → Json → Bool
  | .null, .null => true
  | .bool a, .bool b => a == b
  | .num a, .num b => a == b
  | .str a, .str b => a == b
  | .arr a, .arr b => jsonListBeq a b
  | .obj a, .obj b => jsonKvsBeq a b
  | _, _ => false
def jsonListBeq : List Json → List Json → Bool
  | [], [] => true
  | a :: as, b :: bs => jsonBeq a b && jsonListBeq as bs
  | _, _ => false
def jsonKvsBeq : List (String × Json) → List (String × Json) → Bool
  | [], [] => true
  | (k1, v1) :: as, (k2, v2) :: bs => k1 == k2 && jsonBeq v1 v2 && jsonKvsBeq as bs
  | _, _ => false
end

/-- Python `x in s` for a set of JSON values carried as a list. -/
def jsonMem (x : Json) (l : List Json) : Bool :=
  l.any (jsonBeq x)

mutual
/-- Node-count measure used to justify termination of the explicit-stack
traversal. -/
def jsonSize : Json → Nat
  | .arr es => 1 + jsonListSize es
  | .obj kvs => 1 + jsonKvsSize kvs
  | _ => 1
def jsonListSize : List Json → Nat
  | [] => 0
  | e :: es => jsonSize e + jsonListSize es
def jsonKvsSize : List (String × Json) → Nat
  | [] => 0
  | kv :: kvs => jsonSize kv.2 + jsonKvsSize kvs
end

theorem jsonListSize_append (l1 l2 : List Json) :
    jsonListSize (l1 ++ l2) = jsonListSize l1 + jsonListSize l2 := by
  induction l1 with
  | nil => simp [jsonListSize]
  | cons e es ih => simp [jsonListSize, ih]; omega

theorem jsonListSize_reverse (l : List Json) :
    jsonListSize l.reverse = jsonListSize l := by
  induction l with
  | nil => rfl
  | cons e es ih =>
    simp [jsonListSize, List.reverse_cons, jsonListSize_append, ih]
    omega

theorem jsonListSize_map_snd (kvs : List (String × Json)) :
    jsonListSize (kvs.map Prod.snd) = jsonKvsSize kvs := by
  induction kvs with
  | nil => rfl
  | cons kv t ih => simp [jsonListSize, jsonKvsSize, ih]

theorem jsonSize_pos (j : Json) : 1 ≤ jsonSize j := by
  cases j <;> simp [jsonSize]

theorem jsonBeq_iff_aux :
    ∀ (n : Nat) (a b : Json), jsonSize a ≤ n → (jsonBeq a b = true ↔ a = b) := by
  intro n
  induction n with
  | zero =>
    intro a b h
    have := jsonSize_pos a
    omega
  | succ n ih =>
    intro a b h
    cases a with
    | null => cases b <;> simp [jsonBeq]
    | bool x => cases b <;> simp [jsonBeq]
    | num x => cases b <;> simp [jsonBeq]
    | str x => cases b <;> simp [jsonBeq]
    | arr as =>
      cases b with
      | arr bs =>
        have hsz : jsonListSize as ≤ n := by
          simp only [jsonSize] at h
          omega
        simp only [jsonBeq, Json.arr.injEq]
        clear h
        induction as generalizing bs with
        | nil => cases bs <;> simp [jsonListBeq]
        | cons e es ihe =>
          cases bs with
          | nil => simp [jsonListBeq]
          | cons f fs =>
            have h1 : jsonSize e ≤ n := by
              simp only [jsonListSize] at hsz
              have := jsonSize_pos e
              omega
            have h2 : jsonListSize es ≤ n := by
              simp only [jsonListSize] at hsz
              have := jsonSize_pos e
              omega
            simp only [jsonListBeq, Bool.and_eq_true, ih e f h1, ihe fs h2,
              List.cons.injEq]
      | null => simp [jsonBeq]
      | bool x => simp [jsonBeq]
      | num x => simp [jsonBeq]
      | str x => simp [jsonBeq]
      | obj kvs => simp [jsonBeq]
    | obj as =>
      cases b with
      | obj bs =>
        have hsz : jsonKvsSize as ≤ n := by
          simp only [jsonSize] at h
          omega
        simp only [jsonBeq, Json.obj.injEq]
        clear h
        induction as generalizing bs with
        | nil => cases bs <;> simp [jsonKvsBeq]
        | cons e es ihe =>
          cases bs with
          | nil => simp [jsonKvsBeq]
          | cons f fs =>
            have h1 : jsonSize e.2 ≤ n := by
              simp only [jsonKvsSize] at hsz
              have := jsonSize_pos e.2
              omega
            have h2 : jsonKvsSize es ≤ n := by
              simp only [jsonKvsSize] at hsz
              have := jsonSize_pos e.2
              omega
            obtain ⟨k1, v1⟩ := e
            obtain ⟨k2, v2⟩ := f
            simp only [jsonKvsBeq, Bool.and_eq_true, beq_iff_eq,
              ih v1 v2 h1, ihe fs h2, List.cons.injEq, Prod.mk.injEq]
      | null => simp [jsonBeq]
      | bool x => simp [jsonBeq]
      | num x => simp [jsonBeq]
      | str x => simp [jsonBeq]
      | arr es => simp [jsonBeq]

theorem jsonBeq_iff (a b : Json) : jsonBeq a b = true ↔ a = b :=
  jsonBeq_iff_aux (jsonSize a) a b (Nat.le_refl _)

instance : DecidableEq Json := fun a b => decidable_of_iff _ (jsonBeq_iff a b)

/-! ## `json.dumps(event, ensure_ascii=False)` -/

/-- Lowercase hexadecimal digit of `n % 16`. -/
def hexDigit (n : Nat) : Char :=
  "0123456789abcdef".data.getD (n % 16) '0'

/-- Escaping applied by `json.dumps` (with `ensure_ascii=False`) to one
character of a string. -/
def escChar (c : Char) : List Char :=
  if c = '"' then ['\\', '"']
  else if c = '\\' then ['\\', '\\']
  else if c = '\n' then ['\\', 'n']
  else if c = '\r' then ['\\', 'r']
  else if c = '\t' then ['\\', 't']
  else if c = '\x08' then ['\\', 'b']
  else if c = '\x0c' then ['\\', 'f']
  else if c.toNat < 32 then ['\\', 'u', '0', '0', hexDigit (c.toNat / 16), hexDigit c.toNat]
  else [c]

/-- A JSON string literal as `json.dumps` writes it. -/
def jsonQuote (s : String) : String :=
  "\"" ++ String.mk (s.data.flatMap escChar) ++ "\""

mutual
/-- Model of `json.dumps(v, ensure_ascii=False)` with the default separators
`", "` and `": "`. -/
def jsonDumps : Json → String
  | .null => "null"
  | .bool true => "true"
  | .bool false => "false"
  | .num n => toString n
  | .str s => jsonQuote s
  | .arr es => "[" ++ jsonDumpsElems es ++ "]"
  | .obj kvs => "\x7b" ++ jsonDumpsKvs kvs ++ "\x7d"
def jsonDumpsElems : List Json → String
  | [] => ""
  | [e] => jsonDumps e
  | e :: es => jsonDumps e ++ ", " ++ jsonDumpsElems es
def jsonDumpsKvs : List (String × Json) → String
  | [] => ""
  | [(k, v)] => jsonQuote k ++ ": " ++ jsonDumps v
  | (k, v) :: kvs => jsonQuote k ++ ": " ++ jsonDumps v ++ ", " ++ jsonDumpsKvs kvs
end

/-! ## Python value coercions used by `event_summary` -/

/-- Python truthiness of a JSON value. -/
def pyTruthy : Json → Bool
  | .null => false
  | .bool b => b
  | .num n => n != 0
  | .str s => !s.isEmpty
  | .arr es => !es.isEmpty
  | .obj kvs => !kvs.isEmpty

/-- Python's short-circuiting `a or b`: the first operand if truthy, else the
second. -/
def pyOr (a b : Json) : Json :=
  if pyTruthy a then a else b

/-- Model of `dict.get(k)`: the value at `k`, or `None` when absent. -/
def pyGet (kvs : List (String × Json)) (k : String) : Json :=
  match kvs.find? (fun kv => kv.1 == k) with
  | some kv => kv.2
  | none => .null

/-- Model of `dict.get` on an arbitrary JSON value (events are always mappings). -/
def evGet (j : Json) (k : String) : Json :=
  match j with
  | .obj kvs => pyGet kvs k
  | _ => .null

/-- Escaping used by `repr` for one character of a string quoted with `q`. -/
def escReprChar (q c : Char) : List Char :=
  if c = '\\' then ['\\', '\\']
  else if c = q then ['\\', q]
  else if c = '\n' then ['\\', 'n']
  else if c = '\r' then ['\\', 'r']
  else if c = '\t' then ['\\', 't']
  else [c]

/-- Model of `repr` of a Python string: single-quoted unless the string contains a
single quote and no double quote. -/
def reprQuoted (s : String) : String :=
  if s.data.contains '\'' && !(s.data.contains '"') then
    "\"" ++ String.mk (s.data.flatMap (escReprChar '"')) ++ "\""
  else
    "'" ++ String.mk (s.data.flatMap (escReprChar '\'')) ++ "'"

mutual
/-- Model of `str(v)` and `repr(v)` on the JSON values reaching `event_summary`. -/
def pyStr : Json → String
  | .str s => s
  | j => pyRepr j
def pyRepr : Json → String
  | .null => "None"
  | .bool true => "True"
  | .bool false => "False"
  | .num n => toString n
  | .str s => reprQuoted s
  | .arr es => "[" ++ pyReprElems es ++ "]"
  | .obj kvs => "\x7b" ++ pyReprKvs kvs ++ "\x7d"
def pyReprElems : List Json → String
  | [] => ""
  | [e] => pyRepr e
  | e :: es => pyRepr e ++ ", " ++ pyReprElems es
def pyReprKvs : List (String × Json) → String
  | [] => ""
  | [(k, v)] => reprQuoted k ++ ": " ++ pyRepr v
  | (k, v) :: kvs => reprQuoted k ++ ": " ++ pyRepr v ++ ", " ++ pyReprKvs kvs
end

/-! ## `deep_iter`, `looks_like_event`, `extract_events` -/

/-- The values pushed for one node by `deep_iter`'s `stack.extend(...)`,
in the order the stack pops them (Python extends at the tail and pops the
tail, so children come off in reverse). -/
def childrenRev : Json → List Json
  | .arr es => es.reverse
  | .obj kvs => (kvs.map Prod.snd).reverse
  | _ => []

theorem childrenRev_size_lt (j : Json) : jsonListSize (childrenRev j) < jsonSize j := by
  cases j with
  | arr es => simp [childrenRev, jsonSize, jsonListSize_reverse]
  | obj kvs => simp [childrenRev, jsonSize, jsonListSize_reverse, jsonListSize_map_snd]
  | null => simp [childrenRev, jsonSize, jsonListSize]
  | bool b => simp [childrenRev, jsonSize, jsonListSize]
  | num n => simp [childrenRev, jsonSize, jsonListSize]
  | str s => simp [childrenRev, jsonSize, jsonListSize]

/-- Work-list loop of `deep_iter(obj)`, made structurally recursive on a fuel
bound; the fuel never runs out when it starts at the node count of the stack
(`deepIterGo_eq_of_le` below). -/
def deepIterGo : Nat → List Json → List Json
  | _, [] => []
  | 0, _ :: _ => []
  | fuel + 1, cur :: stack => cur :: deepIterGo fuel (childrenRev cur ++ stack)

/-- Model of `deep_iter(obj)`: explicit work-list traversal yielding every node,
in the order the Python generator yields them. -/
def deepIterStack (l : List Json) : List Json :=
  deepIterGo (jsonListSize l) l

theorem deepIterGo_eq_of_le (f1 : Nat) :
    ∀ f2 l, jsonListSize l ≤ f1 → jsonListSize l ≤ f2 →
      deepIterGo f1 l = deepIterGo f2 l := by
  induction f1 using Nat.strong_induction_on with
  | _ f1 ih =>
    intro f2 l h1 h2
    cases l with
    | nil => cases f1 <;> cases f2 <;> rfl
    | cons cur stack =>
      have hcur := childrenRev_size_lt cur
      have hsz : 1 ≤ jsonSize cur := by
        cases cur <;> simp [jsonSize]
      have hl : jsonListSize (cur :: stack) = jsonSize cur + jsonListSize stack := rfl
      cases f1 with
      | zero => omega
      | succ f1' =>
        cases f2 with
        | zero => omega
        | succ f2' =>
          have hrest : jsonListSize (childrenRev cur ++ stack) ≤ f1' := by
            rw [jsonListSize_append]; omega
          have hrest2 : jsonListSize (childrenRev cur ++ stack) ≤ f2' := by
            rw [jsonListSize_append]; omega
          have hlt : f1' < f1' + 1 := Nat.lt_succ_self _
          simp only [deepIterGo]
          rw [ih f1' hlt f2' _ hrest hrest2]

/-- The fixed key set scanned by `looks_like_event` (already lower-cased in
the source). -/
def eventKeys : List String :=
  ["title", "name", "start", "starttime", "startsat", "venue", "venueid", "sport"]

/-- Model of `looks_like_event(d)`: at least two of the fixed keys occur among the
lower-cased keys of the mapping. -/
def looks_like_event (kvs : List (String × Json)) : Bool :=
  2 ≤ eventKeys.countP (fun k => kvs.any (fun kv => lowerStr kv.1 == k))

/-- The test applied to each traversed node by `extract_events`:
`isinstance(node, dict) and looks_like_event(node)`. -/
def isEventNode : Json → Bool
  | .obj kvs => looks_like_event kvs
  | _ => false

/-- Model of `extract_events(payload)`: every traversed mapping that looks like an
event, in traversal order. -/
def extract_events (payload : Json) : List Json :=
  (deepIterStack [payload]).filter isEventNode

/-! ## Normalizer and filter chain -/

/-- The `blob` built inside the sport/program/availability predicates, and the
`searchText` of the specification: `normalize(json.dumps(event,
ensure_ascii=False))`. -/
def searchText (ev : Json) : String :=
  normalize (jsonDumps ev)

/-- Model of `venue_matches(event)`: `VENUE_ID in json.dumps(event, ensure_ascii=False)`
(note: the raw serialization, not the normalized blob). -/
def venue_matches (venueId : String) (ev : Json) : Bool :=
  pyIn venueId (jsonDumps ev)

/-- Model of `is_volleyball(event)`. -/
def is_volleyball (ev : Json) : Bool :=
  pyIn "volleyball" (searchText ev)

/-- Model of `OPEN_PLAY_KEYWORDS` from the source. -/
def OPEN_PLAY_KEYWORDS : List String :=
  ["open play", "pickup", "pick-up", "drop-in", "drop in", "open gym", "open volleyball"]

/-- Model of `is_open_play(event)`. -/
def is_open_play (ev : Json) : Bool :=
  OPEN_PLAY_KEYWORDS.any (fun k => pyIn k (searchText ev))

/-- Model of `is_available(event)`. -/
def is_available (ev : Json) : Bool :=
  !(pyIn "sold out" (searchText ev) || pyIn "waitlist" (searchText ev))

/-- The conjunction of the four filters applied in `main`'s loop over
`json_events`. -/
def passesFilters (venueId : String) (ev : Json) : Bool :=
  venue_matches venueId ev && is_volleyball ev && is_open_play ev && is_available ev

/-- Model of `event_summary(event)`. -/
def event_summary (ev : Json) : String :=
  let title := pyStr (pyOr (evGet ev "title") (pyOr (evGet ev "name") (.str "Volo Volleyball")))
  let start := pyStr (pyOr (evGet ev "start") (pyOr (evGet ev "startTime")
    (pyOr (evGet ev "startsAt") (pyOr (evGet ev "dateTime") (.str "")))))
  let venue :=
    match evGet ev "venue" with
    | .obj vkvs => pyStr (pyOr (pyGet vkvs "name") (.str ""))
    | _ => ""
  String.intercalate " | " (([title, start, venue]).filter (fun p => !p.isEmpty))

/-- The ordered link-field names probed by `event_url`. -/
def urlKeys : List String := ["url", "eventUrl", "href", "link", "shareUrl"]

/-- Model of `event_url(event)`: first string field among `urlKeys` starting with
`"http"`, else the discovery URL. -/
def event_url (discoverUrl : String) (ev : Json) : String :=
  match urlKeys.findSome? (fun k =>
    match evGet ev k with
    | .str v => if startsWithChars "http".data v.data then some v else none
    | _ => none) with
  | some v => v
  | none => discoverUrl

/-! ## SHA-256 (`hashlib.sha256(...).hexdigest()`) and `stable_id` -/

/-- Truncation to a 32-bit word. -/
def w32 (n : Nat) : Nat := n % 4294967296

/-- The 32-bit right rotation. -/
def rotr32 (k x : Nat) : Nat :=
  w32 ((x >>> k) ||| (x <<< (32 - k)))

/-- The SHA-256 choice function. -/
def shaCh (x y z : Nat) : Nat := (x &&& y) ^^^ ((x ^^^ 4294967295) &&& z)

/-- The SHA-256 majority function. -/
def shaMaj (x y z : Nat) : Nat := (x &&& y) ^^^ (x &&& z) ^^^ (y &&& z)

/-- SHA-256 big sigma 0. -/
def shaS0 (x : Nat) : Nat := rotr32 2 x ^^^ rotr32 13 x ^^^ rotr32 22 x

/-- SHA-256 big sigma 1. -/
def shaS1 (x : Nat) : Nat := rotr32 6 x ^^^ rotr32 11 x ^^^ rotr32 25 x

/-- SHA-256 small sigma 0. -/
def shas0 (x : Nat) : Nat := rotr32 7 x ^^^ rotr32 18 x ^^^ (x >>> 3)

/-- SHA-256 small sigma 1. -/
def shas1 (x : Nat) : Nat := rotr32 17 x ^^^ rotr32 19 x ^^^ (x >>> 10)

/-- The 64 SHA-256 round constants. -/
def shaK : List Nat :=
  [1116352408, 1899447441, 3049323471, 3921009573, 961987163, 1508970993,
   2453635748, 2870763221, 3624381080, 310598401, 607225278, 1426881987,
   1925078388, 2162078206, 2614888103, 3248222580, 3835390401, 4022224774,
   264347078, 604807628, 770255983, 1249150122, 1555081692, 1996064986,
   2554220882, 2821834349, 2952996808, 3210313671, 3336571891, 3584528711,
   113926993, 338241895, 666307205, 773529912, 1294757372, 1396182291,
   1695183700, 1986661051, 2177026350, 2456956037, 2730485921, 2820302411,
   3259730800, 3345764771, 3516065817, 3600352804, 4094571909, 275423344,
   430227734, 506948616, 659060556, 883997877, 958139571, 1322822218,
   1537002063, 1747873779, 1955562222, 2024104815, 2227730452, 2361852424,
   2428436474, 2756734187, 3204031479, 3329325298]

/-- The eight 32-bit working variables of the SHA-256 compression function. -/
structure Sha256State where
  a : Nat
  b : Nat
  c : Nat
  d : Nat
  e : Nat
  f : Nat
  g : Nat
  h : Nat

/-- The SHA-256 initial hash value. -/
def shaInit : Sha256State :=
  ⟨1779033703, 3144134277, 1013904242, 2773480762, 1359893119, 2600822924, 528734635, 1541459225⟩

/-- Big-endian byte decomposition of `n` into `k` bytes. -/
def natToBytesBE (k n : Nat) : List Nat :=
  (List.range k).map (fun i => (n >>> (8 * (k - 1 - i))) % 256)

/-- SHA-256 message padding: `0x80`, zeros, and the 64-bit big-endian bit
length, to a multiple of 64 bytes. -/
def shaPad (msg : List Nat) : List Nat :=
  let r := msg.length % 64
  let k := (64 - ((r + 9) % 64)) % 64
  msg ++ [128] ++ List.replicate k 0 ++ natToBytesBE 8 (msg.length * 8)

/-- Big-endian 32-bit words of a byte list. -/
def toWords : List Nat → List Nat
  | b0 :: b1 :: b2 :: b3 :: rest => (b0 <<< 24 ||| b1 <<< 16 ||| b2 <<< 8 ||| b3) :: toWords rest
  | _ => []

/-- One extension step of the SHA-256 message schedule. -/
def scheduleStep (ws : List Nat) : List Nat :=
  ws ++ [w32 (shas1 (ws.getD (ws.length - 2) 0) + ws.getD (ws.length - 7) 0 +
              shas0 (ws.getD (ws.length - 15) 0) + ws.getD (ws.length - 16) 0)]

/-- The full 64-word SHA-256 message schedule of one block. -/
def schedule (ws : List Nat) : List Nat :=
  (List.range 48).foldl (fun acc _ => scheduleStep acc) ws

/-- One SHA-256 round, fed the round constant and the schedule word. -/
def shaRound (st : Sha256State) (kw : Nat × Nat) : Sha256State :=
  let t1 := w32 (st.h + shaS1 st.e + shaCh st.e st.f st.g + kw.1 + kw.2)
  let t2 := w32 (shaS0 st.a + shaMaj st.a st.b st.c)
  ⟨w32 (t1 + t2), st.a, st.b, st.c, w32 (st.d + t1), st.e, st.f, st.g⟩

/-- The SHA-256 compression function on one 64-byte block. -/
def shaCompress (st : Sha256State) (block : List Nat) : Sha256State :=
  let ws := schedule (toWords block)
  let fin := (shaK.zip ws).foldl (fun s kw => shaRound s (kw.1, kw.2)) st
  ⟨w32 (st.a + fin.a), w32 (st.b + fin.b), w32 (st.c + fin.c), w32 (st.d + fin.d),
   w32 (st.e + fin.e), w32 (st.f + fin.f), w32 (st.g + fin.g), w32 (st.h + fin.h)⟩

/-- Iterate the compression function over successive 64-byte blocks; the fuel
(one unit per byte) makes the loop structurally recursive and never runs out
on padded input. -/
def shaBlocksGo : Nat → Sha256State → List Nat → Sha256State
  | _, st, [] => st
  | 0, st, _ :: _ => st
  | fuel + 1, st, x :: xs => shaBlocksGo fuel (shaCompress st ((x :: xs).take 64)) ((x :: xs).drop 64)

/-- The 32-byte SHA-256 digest of a byte string. -/
def sha256Bytes (msg : List Nat) : List Nat :=
  let fin := shaBlocksGo (shaPad msg).length shaInit (shaPad msg)
  [fin.a, fin.b, fin.c, fin.d, fin.e, fin.f, fin.g, fin.h].flatMap (natToBytesBE 4)

/-- Lowercase hexadecimal rendering of a byte list (`.hexdigest()`). -/
def bytesToHexChars (bs : List Nat) : List Char :=
  bs.flatMap (fun b => [hexDigit (b / 16), hexDigit b])

/-- UTF-8 encoding of a string (`str.encode("utf-8")`). -/
def utf8Encode (s : String) : List Nat :=
  s.data.flatMap (fun c =>
    let n := c.toNat
    if n < 128 then [n]
    else if n < 2048 then [192 + n / 64, 128 + n % 64]
    else if n < 65536 then [224 + n / 4096, 128 + (n / 64) % 64, 128 + n % 64]
    else [240 + n / 262144, 128 + (n / 4096) % 64, 128 + (n / 64) % 64, 128 + n % 64])

/-- Model of `hashlib.sha256(bytes).hexdigest()` as a character list. -/
def sha256hexChars (msg : List Nat) : List Char :=
  bytesToHexChars (sha256Bytes msg)

/-- Model of `stable_id(*parts)`: first 16 hex digits of the SHA-256 of the parts
joined by `"||"`. -/
def stable_id (parts : List String) : String :=
  String.mk ((sha256hexChars (utf8Encode (String.intercalate "||" parts))).take 16)

set_option maxRecDepth 20000 in
/-- Sanity anchor for the SHA-256 model: the NIST test vector for `"abc"`. -/
theorem sha256_abc_vector :
    sha256hexChars (utf8Encode "abc") =
      "ba7816bf8f01cfea414140de5dae2223b00361a396177a9cb410ff61f20015ad".data := by
  decide

/-! ## Persistence: `load_seen` / `save_seen` -/

/-- Outcome of the file-system interaction in `load_seen`: the state file is
absent (`os.path.exists` false), opening or reading it raises, `json.load`
raises on invalid JSON, or a JSON value is produced. -/
inductive LoadOutcome where
  | absent : LoadOutcome
  | unreadable : LoadOutcome
  | invalidJson : LoadOutcome
  | value (j : Json) : LoadOutcome

/-- Whether `set(...)` accepts a value as an element (mappings and lists are
unhashable and raise `TypeError`). -/
def pyHashable : Json → Bool
  | .arr _ => false
  | .obj _ => false
  | _ => true

/-- Model of `set(v)` for a JSON value `v`: elements of a list of hashables, the
characters of a string, the keys of a mapping; everything else raises
`TypeError`. -/
def pySetElems : Json → Except Unit (List Json)
  | .arr es => if es.all pyHashable then .ok es else .error ()
  | .str s => .ok (s.data.map fun c => .str (String.mk [c]))
  | .obj kvs => .ok (kvs.map fun kv => .str kv.1)
  | _ => .error ()

/-- Model of `load_seen()`: the in-memory seen set (as the list of its elements); every
failure path of the `try`/`except Exception` produces the empty set. -/
def load_seen : LoadOutcome → List Json
  | .absent => []
  | .unreadable => []
  | .invalidJson => []
  | .value j =>
    match pySetElems j with
    | .ok l => l
    | .error _ => []

/-- String test used when sorting the seen set. -/
def isStrJson : Json → Bool
  | .str _ => true
  | _ => false

/-- Number test used when sorting the seen set. -/
def isNumJson : Json → Bool
  | .num _ => true
  | _ => false

/-- The string payload of a JSON string. -/
def asStr : Json → Option String
  | .str s => some s
  | _ => none

/-- The integer payload of a JSON number. -/
def asNum : Json → Option Int
  | .num n => some n
  | _ => none

/-- Python's `sorted(...)` on the seen set: ascending sort for homogeneous
strings or numbers, `TypeError` otherwise. -/
def pySorted (l : List Json) : Except Unit (List Json) :=
  if l.all isStrJson then
    .ok ((List.insertionSort (· ≤ ·) (l.filterMap asStr)).map Json.str)
  else if l.all isNumJson then
    .ok ((List.insertionSort (· ≤ ·) (l.filterMap asNum)).map Json.num)
  else .error ()

/-- Model of `json.dump(v, f, indent=2)` for the top-level array written by
`save_seen`: each element on its own line, two-space indent. -/
def dumpIndent2Arr (l : List Json) : String :=
  match l with
  | [] => "[]"
  | _ => "[\n  " ++ String.intercalate ",\n  " (l.map jsonDumps) ++ "\n]"

/-- Model of `save_seen(seen)`: the full text written over the state file in one
rewrite (`json.dump(sorted(seen), f, indent=2)`). -/
def save_seen (seen : List Json) : Except Unit String :=
  (pySorted seen).map dumpIndent2Arr

/-! ## Notification dispatcher -/

/-- Outcome of the SMTP transport: `send_sms_via_email` raises or returns. -/
def send_sms_via_email (transportRaises : Bool) : Except Unit Unit :=
  if transportRaises then .error () else .ok ()

/-- Model of `notify(message)`: the console lines it writes; the message is printed
first, then the transport is attempted and any exception is caught and
logged. -/
def notify (transportRaises : Bool) (message : String) : List String :=
  message ::
    (match send_sms_via_email transportRaises with
     | .ok _ => ["SMS sent."]
     | .error _ => ["SMS failed."])

/-! ## Signup state machine (`attempt_signup`) -/

/-- Model of `write_storage_state_from_secret()`: `None` when the secret is empty or
decoding/writing raises, else the storage-state path. -/
def write_storage_state_from_secret (b64 : String) (decodeOk : Bool) : Option String :=
  if b64 = "" then none
  else if decodeOk then some "storage_state.json" else none

/-- The candidate control labels, in priority order. -/
def signupCandidates : List String := ["Register", "Join", "Sign up", "Sign Up", "Enroll"]

/-- The risk markers scanned for after the registration control is clicked. -/
def riskMarkers : List String :=
  ["captcha", "payment", "card number", "checkout", "verify", "3d secure"]

/-- Observable page-automation actions performed by `attempt_signup`. -/
inductive SignupAct where
  | navigate : SignupAct
  | clickButton (label : String) : SignupAct
  | clickLink (label : String) : SignupAct
  | clickConfirm : SignupAct
  | closeContext : SignupAct
  | closeBrowser : SignupAct
  deriving DecidableEq

/-- One call's worth of outcomes from the page-automation engine, fixed in
advance: which steps raise, what the page URL and visible text are, and how
many controls match each query. Launching and configuring the session itself
is an external collaborator and is not a failure source here. -/
structure SignupEnv where
  storageB64 : String
  decodeOk : Bool
  gotoRaises : Bool
  pageUrl : String
  btnCount : String → Nat
  btnClickRaises : Bool
  lnkCount : String → Nat
  lnkClickRaises : Bool
  innerTextRaises : Bool
  bodyText : String
  confirmCount : Nat
  confirmClickRaises : Bool

/-- Steps following the click of a registration control: risk scan, then the
optional confirmation click. `Except.error` marks an exception flowing to the
enclosing handler. -/
def signupAfterClick (env : SignupEnv) (tr : List SignupAct) :
    Except Unit Bool × List SignupAct :=
  if env.innerTextRaises then (.error (), tr)
  else
    let pageText := normalize env.bodyText
    if riskMarkers.any (fun r => pyIn r pageText) then (.ok false, tr)
    else if env.confirmCount > 0 then
      if env.confirmClickRaises then (.error (), tr)
      else (.ok true, tr ++ [SignupAct.clickConfirm])
    else (.ok true, tr)

/-- The body of `attempt_signup`'s `try` block: navigation, login-redirect
check, control search (buttons first, links second), click, then
`signupAfterClick`. -/
def signupBody (env : SignupEnv) : Except Unit Bool × List SignupAct :=
  if env.gotoRaises then (.error (), [SignupAct.navigate])
  else if pyIn "login" (lowerStr env.pageUrl) then (.ok false, [SignupAct.navigate])
  else
    match signupCandidates.find? (fun l => env.btnCount l > 0) with
    | some l =>
      if env.btnClickRaises then (.error (), [SignupAct.navigate, SignupAct.clickButton l])
      else signupAfterClick env [SignupAct.navigate, SignupAct.clickButton l]
    | none =>
      match signupCandidates.find? (fun l => env.lnkCount l > 0) with
      | some l =>
        if env.lnkClickRaises then (.error (), [SignupAct.navigate, SignupAct.clickLink l])
        else signupAfterClick env [SignupAct.navigate, SignupAct.clickLink l]
      | none => (.ok false, [SignupAct.navigate])

/-- Model of `attempt_signup(playwright, target_url)`: early return when no storage
state; otherwise the `try` body with `except Exception: return False` and a
`finally` that closes the context and the browser. -/
def attempt_signup (env : SignupEnv) : Bool × List SignupAct :=
  match write_storage_state_from_secret env.storageB64 env.decodeOk with
  | none => (false, [])
  | some _ =>
    match signupBody env with
    | (.ok b, tr) => (b, tr ++ [SignupAct.closeContext, SignupAct.closeBrowser])
    | (.error _, tr) => (false, tr ++ [SignupAct.closeContext, SignupAct.closeBrowser])

/-- Whether the control-search-and-click step completes without raising. -/
def signupControlClicked (env : SignupEnv) : Bool :=
  match signupCandidates.find? (fun l => env.btnCount l > 0) with
  | some _ => !env.btnClickRaises
  | none =>
    match signupCandidates.find? (fun l => env.lnkCount l > 0) with
    | some _ => !env.lnkClickRaises
    | none => false

/-- The unique success path of the signup state machine: storage present,
navigation succeeds, no login redirect, a control found and clicked, page text
read, no risk marker, and any confirmation click succeeds. -/
def signupSucceeds (env : SignupEnv) : Bool :=
  (write_storage_state_from_secret env.storageB64 env.decodeOk).isSome &&
  !env.gotoRaises &&
  !(pyIn "login" (lowerStr env.pageUrl)) &&
  signupControlClicked env &&
  !env.innerTextRaises &&
  !(riskMarkers.any (fun r => pyIn r (normalize env.bodyText))) &&
  (env.confirmCount == 0 || !env.confirmClickRaises)

/-! ## The `main()` run -/

/-- The configuration values `main` reads from the environment. -/
structure RunCfg where
  discoverUrl : String
  venueId : String
  autoSignup : Bool

/-- In-run mutable state of `main`'s loop over filtered events. -/
structure RunState where
  seen : List Json
  notifs : List String
  logs : List String
  newFound : Nat

/-- The stable id `main` computes for one event. -/
def eventSid (cfg : RunCfg) (ev : Json) : String :=
  stable_id [event_summary ev, event_url cfg.discoverUrl ev]

/-- One `notify(...)` call inside `main`: appends the message to the dispatch
list and the produced console lines to the log; the transport outcome of the
`n`-th call is `transportFails n`. -/
def runNotify (transportFails : Nat → Bool) (st : RunState) (msg : String) : RunState :=
  { st with
    notifs := st.notifs ++ [msg],
    logs := st.logs ++ notify (transportFails st.notifs.length) msg }

/-- The body of `main`'s `for ev in filtered` loop for one event. -/
def processEvent (cfg : RunCfg) (transportFails : Nat → Bool)
    (signupEnvs : Nat → SignupEnv) (st : RunState) (ev : Json) : RunState :=
  let url := event_url cfg.discoverUrl ev
  let summary := event_summary ev
  let sid := stable_id [summary, url]
  if jsonMem (.str sid) st.seen then st
  else
    let st1 : RunState :=
      { st with seen := st.seen ++ [Json.str sid], newFound := st.newFound + 1 }
    let st2 := runNotify transportFails st1
      ("New Volo Open Play found:\n" ++ summary ++ "\n" ++ url)
    if cfg.autoSignup then
      if (attempt_signup (signupEnvs st2.newFound)).1 then
        runNotify transportFails st2 ("Auto-signup attempted for:\n" ++ summary ++ "\n" ++ url)
      else
        runNotify transportFails st2 ("Auto-signup could not complete.\nOpen link to finish:\n" ++ url)
    else st2

/-- The `filtered` list `main` builds: every extracted event of every captured
JSON payload that passes all four predicates. -/
def filteredEvents (cfg : RunCfg) (payloads : List Json) : List Json :=
  (payloads.flatMap extract_events).filter (passesFilters cfg.venueId)

/-- Result of one run: the final loop state and the text written over the
state file. -/
structure RunResult where
  state : RunState
  saved : Except Unit String

/-- One invocation of `main()`: load the seen set, extract and filter the
captured payloads, process each match, save the seen set. -/
def mainRun (cfg : RunCfg) (load : LoadOutcome) (payloads : List Json)
    (transportFails : Nat → Bool) (signupEnvs : Nat → SignupEnv) : RunResult :=
  let seen0 := load_seen load
  let final := (filteredEvents cfg payloads).foldl
    (processEvent cfg transportFails signupEnvs) ⟨seen0, [], [], 0⟩
  ⟨final, save_seen final.seen⟩

/-! ## Helper lemmas for the claim theorems -/

theorem countP_one_filter {α : Type} (p : α → Bool) (l : List α) (d : α)
    (h1 : l.countP p = 1) (hd : d ∈ l) (hpd : p d = true) :
    l.filter p = [d] := by
  induction l with
  | nil => cases hd
  | cons a t ih =>
    by_cases hpa : p a = true
    · have hct : t.countP p = 0 := by
        rw [List.countP_cons_of_pos _ _ hpa] at h1
        omega
      have hdt : d = a := by
        rcases List.mem_cons.mp hd with h | h
        · exact h
        · exact absurd hpd (List.countP_eq_zero.mp hct d h)
      subst hdt
      have hnil : t.filter p = [] :=
        List.filter_eq_nil_iff.mpr (List.countP_eq_zero.mp hct)
      rw [List.filter_cons_of_pos hpa, hnil]
    · have hpa' : ¬p a = true := hpa
      rcases List.mem_cons.mp hd with h | h
      · subst h; exact absurd hpd hpa'
      · have h1' : t.countP p = 1 := by
          rwa [List.countP_cons_of_neg _ _ hpa'] at h1
        rw [List.filter_cons_of_neg hpa']
        exact ih h1' h

theorem jsonMem_append (x : Json) (l1 l2 : List Json) :
    jsonMem x (l1 ++ l2) = (jsonMem x l1 || jsonMem x l2) := by
  simp [jsonMem, List.any_append]

/-! ## Claim theorems -/

/-- C2 (extraction soundness): for every payload containing exactly one
mapping node with at least two of the scanned keys — every other traversed
node being a non-mapping or a mapping with fewer than two — `extract_events`
returns exactly that mapping as its only candidate. A `Json` payload is
finite and acyclic by construction, matching the claim's hypothesis. -/
theorem extraction_soundness (payload d : Json)
    (h1 : (deepIterStack [payload]).countP isEventNode = 1)
    (hd : d ∈ deepIterStack [payload]) (hpd : isEventNode d = true) :
    extract_events payload = [d] :=
  countP_one_filter _ _ _ h1 hd hpd

/-- Fixture payload for the extraction witness: one event-like mapping beside
unrelated scalars and lists. -/
def wExtractPayload : Json :=
  Json.obj [("data", Json.arr [Json.obj [("title", Json.str "T"), ("start", Json.str "S")],
    Json.str "x", Json.num 5]), ("meta", Json.null)]

/-- The single event-like mapping inside `wExtractPayload`. -/
def wExtractEvent : Json :=
  Json.obj [("title", Json.str "T"), ("start", Json.str "S")]

set_option maxRecDepth 4000 in
/-- Witness for C2 at a concrete payload. -/
theorem extraction_soundness_witness :
    (deepIterStack [wExtractPayload]).countP isEventNode = 1 ∧
    extract_events wExtractPayload = [wExtractEvent] :=
  ⟨by decide,
   extraction_soundness wExtractPayload wExtractEvent (by decide) (by decide) (by decide)⟩

/-- The specification's venue predicate: the configured venue identifier
occurs in `searchText`, the normalized (lower-cased, whitespace-collapsed)
serialization of the event. Stated from the spec's words for comparison with
the code's `venue_matches`. -/
def specVenuePred (venueId : String) (ev : Json) : Bool :=
  pyIn venueId (searchText ev)

/-- C3 counterexample: for the event `{"venueId": "V1"}` and configured
venue id `"v1"`, the code's predicate is false while the spec's
searchText-based predicate is true, refuting the claimed equivalence. -/
theorem venue_pred_counterexample :
    venue_matches "v1" (Json.obj [("venueId", Json.str "V1")]) = false ∧
    specVenuePred "v1" (Json.obj [("venueId", Json.str "V1")]) = true := by
  constructor
  · decide
  · decide

/-- C3 amended: the venue predicate holds iff the configured venue identifier
appears as a substring of the raw `json.dumps` serialization of the event
(case-sensitive, not whitespace-collapsed) — not of the normalized
`searchText`. -/
theorem venue_matches_amended (venueId : String) (ev : Json) :
    venue_matches venueId ev = true ↔
      ∃ l r, (jsonDumps ev).data = l ++ venueId.data ++ r :=
  containsSub_iff (jsonDumps ev).data venueId.data

/-- C4 (stable-id determinism): equal argument lists give equal ids, and two
events with identical summary and url map to the same stable id; `stable_id`
reads no ambient state, so this holds within and across runs. -/
theorem stable_id_determinism (p q : List String) (d : String) (e1 e2 : Json)
    (hpq : p = q) (hs : event_summary e1 = event_summary e2)
    (hu : event_url d e1 = event_url d e2) :
    stable_id p = stable_id q ∧
    stable_id [event_summary e1, event_url d e1] =
      stable_id [event_summary e2, event_url d e2] := by
  subst hpq
  rw [hs, hu]
  exact ⟨rfl, rfl⟩

/-- Witness for C4 at concrete arguments and events. -/
theorem stable_id_determinism_witness :
    stable_id ["a", "b"] = stable_id ["a", "b"] ∧
    stable_id [event_summary (Json.obj []), event_url "u" (Json.obj [])] =
      stable_id [event_summary (Json.obj []), event_url "u" (Json.obj [])] :=
  stable_id_determinism ["a", "b"] ["a", "b"] "u" (Json.obj []) (Json.obj []) rfl rfl rfl

/-- C7 (state-load fail-soft): an absent, unreadable, or invalid state file
loads as the empty seen set (every failure path is caught, `load_seen` is a
total function and never raises), and a valid JSON array of strings loads as
exactly the set of those strings. -/
theorem state_load_fail_soft :
    load_seen LoadOutcome.absent = [] ∧
    load_seen LoadOutcome.unreadable = [] ∧
    load_seen LoadOutcome.invalidJson = [] ∧
    (∀ j : Json, pySetElems j = Except.error () →
      load_seen (LoadOutcome.value j) = []) ∧
    (∀ l : List String,
      load_seen (LoadOutcome.value (Json.arr (l.map Json.str))) = l.map Json.str) := by
  refine ⟨rfl, rfl, rfl, ?_, ?_⟩
  · intro j hj
    simp [load_seen, hj]
  · intro l
    have hall : (l.map Json.str).all pyHashable = true := by
      rw [List.all_eq_true]
      intro a ha
      rcases List.mem_map.mp ha with ⟨s, _, rfl⟩
      rfl
    simp [load_seen, pySetElems, hall]

/-- Witness for C7's quantified conjuncts at concrete inputs. -/
theorem state_load_fail_soft_witness :
    pySetElems (Json.num 7) = Except.error () ∧
    load_seen (LoadOutcome.value (Json.num 7)) = [] ∧
    load_seen (LoadOutcome.value (Json.arr [Json.str "aa", Json.str "bb"])) =
      [Json.str "aa", Json.str "bb"] := by
  refine ⟨rfl, (state_load_fail_soft.2.2.2.1 (Json.num 7)) rfl, ?_⟩
  exact state_load_fail_soft.2.2.2.2 ["aa", "bb"]

theorem filterMap_asStr_map (l : List String) :
    List.filterMap (asStr ∘ Json.str) l = l := by
  induction l with
  | nil => rfl
  | cons s t ih => simp [asStr, Function.comp, ih]

/-- C8 (state-save format): for a seen set of id strings, `save_seen`
produces — without raising — the text of a single JSON array holding exactly
the elements of the set sorted ascending, written over the state file in one
full rewrite. -/
theorem state_save_format (l : List String) :
    ∃ sl : List String,
      save_seen (l.map Json.str) = Except.ok (dumpIndent2Arr (sl.map Json.str)) ∧
      sl.Perm l ∧ sl.Sorted (· ≤ ·) := by
  refine ⟨List.insertionSort (· ≤ ·) l, ?_, List.perm_insertionSort _ _,
    List.sorted_insertionSort _ _⟩
  have hall : (l.map Json.str).all isStrJson = true := by
    rw [List.all_eq_true]
    intro a ha
    rcases List.mem_map.mp ha with ⟨s, _, rfl⟩
    rfl
  simp [save_seen, pySorted, hall, List.filterMap_map, filterMap_asStr_map, Except.map]

theorem natToBytesBE_length (k n : Nat) : (natToBytesBE k n).length = k := by
  simp [natToBytesBE]

theorem sha256Bytes_length (msg : List Nat) : (sha256Bytes msg).length = 32 := by
  simp [sha256Bytes, List.flatMap_cons, List.flatMap_nil, natToBytesBE_length]

theorem bytesToHexChars_length (bs : List Nat) :
    (bytesToHexChars bs).length = 2 * bs.length := by
  induction bs with
  | nil => rfl
  | cons b t ih =>
    have hstep : bytesToHexChars (b :: t) =
        [hexDigit (b / 16), hexDigit b] ++ bytesToHexChars t := by
      simp [bytesToHexChars, List.flatMap_cons]
    rw [hstep, List.length_append, ih]
    simp only [List.length_cons, List.length_nil]
    omega

theorem hexDigit_mem (n : Nat) : "0123456789abcdef".data.contains (hexDigit n) = true := by
  have h : n % 16 < 16 := Nat.mod_lt _ (by omega)
  simp only [hexDigit]
  generalize n % 16 = m at h ⊢
  interval_cases m <;> decide

/-- C10 (stable-id shape): `stable_id` returns exactly the first 16 hex
digits of the SHA-256 digest of the arguments joined by `"||"` — a string of
16 characters, each a lowercase hexadecimal digit. -/
theorem stable_id_shape (parts : List String) :
    (stable_id parts).length = 16 ∧
    (stable_id parts).data.all (fun c => "0123456789abcdef".data.contains c) = true ∧
    stable_id parts =
      String.mk ((sha256hexChars (utf8Encode (String.intercalate "||" parts))).take 16) := by
  have h64 : (sha256hexChars (utf8Encode (String.intercalate "||" parts))).length = 64 := by
    simp [sha256hexChars, bytesToHexChars_length, sha256Bytes_length]
  refine ⟨?_, ?_, rfl⟩
  · have hlen : (stable_id parts).length =
        ((sha256hexChars (utf8Encode (String.intercalate "||" parts))).take 16).length := rfl
    rw [hlen, List.length_take, h64]
    decide
  · have hdata : (stable_id parts).data =
        (sha256hexChars (utf8Encode (String.intercalate "||" parts))).take 16 := rfl
    rw [hdata, List.all_eq_true]
    intro c hc
    have hc' : c ∈ sha256hexChars (utf8Encode (String.intercalate "||" parts)) :=
      List.take_subset _ _ hc
    simp only [sha256hexChars, bytesToHexChars, List.mem_flatMap, List.mem_cons,
      List.not_mem_nil, or_false] at hc'
    rcases hc' with ⟨b, _, h | h⟩
    · rw [h]; exact hexDigit_mem _
    · rw [h]; exact hexDigit_mem _

theorem attempt_signup_fst (env : SignupEnv) :
    (attempt_signup env).1 = signupSucceeds env := by
  rw [attempt_signup, signupSucceeds]
  cases hw : write_storage_state_from_secret env.storageB64 env.decodeOk with
  | none => rfl
  | some p =>
    rw [signupBody, signupControlClicked]
    simp only [Option.isSome_some, Bool.true_and]
    by_cases hg : env.gotoRaises
    · simp [hg]
    · simp only [hg, if_false, Bool.not_false, Bool.true_and]
      by_cases hl : pyIn "login" (lowerStr env.pageUrl)
      · simp [hl]
      · simp only [hl, if_false, Bool.not_false, Bool.true_and]
        cases hfb : signupCandidates.find? (fun l => env.btnCount l > 0) with
        | some lb =>
          by_cases hbc : env.btnClickRaises
          · simp [hbc]
          · simp only [hbc, if_false, Bool.not_false, Bool.true_and, signupAfterClick]
            by_cases hit : env.innerTextRaises
            · simp [hit]
            · simp only [hit, if_false, Bool.not_false, Bool.true_and]
              by_cases hr : riskMarkers.any (fun r => pyIn r (normalize env.bodyText))
              · simp [hr]
              · simp only [hr, if_false, Bool.not_false, Bool.true_and]
                by_cases hcc : env.confirmCount > 0
                · by_cases hcr : env.confirmClickRaises
                  · simp [hcc, hcr]
                    omega
                  · simp [hcc, hcr]
                · simp [hcc]
                  omega
        | none =>
          cases hfl : signupCandidates.find? (fun l => env.lnkCount l > 0) with
          | some ll =>
            by_cases hlc : env.lnkClickRaises
            · simp [hlc]
            · simp only [hlc, if_false, Bool.not_false, Bool.true_and, signupAfterClick]
              by_cases hit : env.innerTextRaises
              · simp [hit]
              · simp only [hit, if_false, Bool.not_false, Bool.true_and]
                by_cases hr : riskMarkers.any (fun r => pyIn r (normalize env.bodyText))
                · simp [hr]
                · simp only [hr, if_false, Bool.not_false, Bool.true_and]
                  by_cases hcc : env.confirmCount > 0
                  · by_cases hcr : env.confirmClickRaises
                    · simp [hcc, hcr]
                      omega
                    · simp [hcc, hcr]
                  · simp [hcc]
                    omega
          | none => simp

theorem attempt_signup_trace (env : SignupEnv)
    (hw : (write_storage_state_from_secret env.storageB64 env.decodeOk).isSome = true) :
    ∃ tr, (attempt_signup env).2 =
      tr ++ [SignupAct.closeContext, SignupAct.closeBrowser] := by
  rw [attempt_signup]
  cases hww : write_storage_state_from_secret env.storageB64 env.decodeOk with
  | none => rw [hww] at hw; cases hw
  | some p =>
    cases hb : signupBody env with
    | mk r tr =>
      cases r with
      | ok b => exact ⟨tr, rfl⟩
      | error e => exact ⟨tr, rfl⟩

/-- C5 (signup never raises): `attempt_signup` is a total boolean-valued
function of the page-automation outcomes — the `except Exception` handler
converts every exception raised inside the `try` body into `False`, so
nothing propagates to the caller; it returns `true` exactly on the unique
no-failure path (so every failure path returns `false`); and whenever the
context was created, the `finally` block appends the context and browser
teardown as the last actions of every exit path. -/
theorem signup_never_raises (env : SignupEnv) :
    ((attempt_signup env).1 = true ↔ signupSucceeds env = true) ∧
    ((write_storage_state_from_secret env.storageB64 env.decodeOk).isSome = true →
      ∃ tr, (attempt_signup env).2 =
        tr ++ [SignupAct.closeContext, SignupAct.closeBrowser]) :=
  ⟨by rw [attempt_signup_fst], attempt_signup_trace env⟩

/-- A signup environment in which every step succeeds. -/
def wSigEnv : SignupEnv where
  storageB64 := "c3RhdGU="
  decodeOk := true
  gotoRaises := false
  pageUrl := "https://example.test/event"
  btnCount := fun l => if l = "Register" then 1 else 0
  btnClickRaises := false
  lnkCount := fun _ => 0
  lnkClickRaises := false
  innerTextRaises := false
  bodyText := "Join this session"
  confirmCount := 0
  confirmClickRaises := false

/-- Witness for C5: with a storage snapshot present, the teardown actions
close the run on the concrete environment. -/
theorem signup_never_raises_witness :
    (write_storage_state_from_secret wSigEnv.storageB64 wSigEnv.decodeOk).isSome = true ∧
    ∃ tr, (attempt_signup wSigEnv).2 =
      tr ++ [SignupAct.closeContext, SignupAct.closeBrowser] :=
  ⟨by decide, (signup_never_raises wSigEnv).2 (by decide)⟩

/-- C6 (risk abort): in every execution in which a registration control was
clicked and the page's (normalized) visible text contains a risk marker,
`attempt_signup` returns `false` and the confirmation control is never
clicked. -/
theorem signup_risk_abort (env : SignupEnv)
    (hclick : ∃ l, SignupAct.clickButton l ∈ (attempt_signup env).2 ∨
                   SignupAct.clickLink l ∈ (attempt_signup env).2)
    (hrisk : riskMarkers.any (fun r => pyIn r (normalize env.bodyText)) = true) :
    (attempt_signup env).1 = false ∧ SignupAct.clickConfirm ∉ (attempt_signup env).2 := by
  clear hclick
  rw [attempt_signup]
  cases hw : write_storage_state_from_secret env.storageB64 env.decodeOk with
  | none => exact ⟨rfl, by simp⟩
  | some p =>
    rw [signupBody]
    by_cases hg : env.gotoRaises
    · simp [hg]
    · simp only [hg, if_false]
      by_cases hl : pyIn "login" (lowerStr env.pageUrl)
      · simp [hl]
      · simp only [hl, if_false]
        cases hfb : signupCandidates.find? (fun l => env.btnCount l > 0) with
        | some lb =>
          by_cases hbc : env.btnClickRaises
          · simp [hbc]
          · simp only [hbc, if_false, signupAfterClick]
            by_cases hit : env.innerTextRaises
            · simp [hit]
            · simp [hit, hrisk]
        | none =>
          cases hfl : signupCandidates.find? (fun l => env.lnkCount l > 0) with
          | some ll =>
            by_cases hlc : env.lnkClickRaises
            · simp [hlc]
            · simp only [hlc, if_false, signupAfterClick]
              by_cases hit : env.innerTextRaises
              · simp [hit]
              · simp [hit, hrisk]
          | none => simp

/-- A signup environment in which the page shows a captcha after the
registration button is clicked. -/
def wRiskEnv : SignupEnv where
  storageB64 := "c3RhdGU="
  decodeOk := true
  gotoRaises := false
  pageUrl := "https://example.test/event"
  btnCount := fun l => if l = "Register" then 1 else 0
  btnClickRaises := false
  lnkCount := fun _ => 0
  lnkClickRaises := false
  innerTextRaises := false
  bodyText := "Please solve the CAPTCHA to continue"
  confirmCount := 1
  confirmClickRaises := false

/-- Witness for C6: on the concrete captcha environment the registration
button was clicked, the risk scan fires, the call returns `false`, and no
confirmation click appears in the trace. -/
theorem signup_risk_abort_witness :
    riskMarkers.any (fun r => pyIn r (normalize wRiskEnv.bodyText)) = true ∧
    (attempt_signup wRiskEnv).1 = false ∧
    SignupAct.clickConfirm ∉ (attempt_signup wRiskEnv).2 :=
  ⟨by decide,
   signup_risk_abort wRiskEnv ⟨"Register", Or.inl (by decide)⟩ (by decide)⟩

theorem processEvent_skip (cfg : RunCfg) (tf : Nat → Bool) (se : Nat → SignupEnv)
    (st : RunState) (ev : Json)
    (h : jsonMem (Json.str (eventSid cfg ev)) st.seen = true) :
    processEvent cfg tf se st ev = st := by
  rw [eventSid] at h
  rw [processEvent]
  simp only [h, if_true]

theorem foldl_processEvent_skip (cfg : RunCfg) (tf : Nat → Bool) (se : Nat → SignupEnv)
    (evs : List Json) (st : RunState)
    (h : ∀ ev ∈ evs, jsonMem (Json.str (eventSid cfg ev)) st.seen = true) :
    evs.foldl (processEvent cfg tf se) st = st := by
  induction evs with
  | nil => rfl
  | cons ev t ih =>
    rw [List.foldl_cons, processEvent_skip cfg tf se st ev (h ev (by simp))]
    exact ih (fun e he => h e (by simp [he]))

/-- C1 (deduplication idempotence): if the seen set loaded at the start of a
run already contains the stable id of every event that survives the filter
chain, the run issues zero notifications, adds zero new ids to the seen set,
and counts zero new events. -/
theorem dedup_idempotence (cfg : RunCfg) (load : LoadOutcome) (payloads : List Json)
    (tf : Nat → Bool) (se : Nat → SignupEnv)
    (h : ∀ ev ∈ filteredEvents cfg payloads,
      jsonMem (Json.str (eventSid cfg ev)) (load_seen load) = true) :
    (mainRun cfg load payloads tf se).state.notifs = [] ∧
    (mainRun cfg load payloads tf se).state.seen = load_seen load ∧
    (mainRun cfg load payloads tf se).state.newFound = 0 := by
  rw [mainRun]
  rw [foldl_processEvent_skip cfg tf se _ _ h]
  exact ⟨rfl, rfl, rfl⟩

/-- Run configuration fixture used by the run witnesses. -/
def wCfg : RunCfg where
  discoverUrl := "https://example.test/discover"
  venueId := "v1"
  autoSignup := false

/-- An event fixture that passes all four filters for `wCfg`. -/
def wEv : Json :=
  Json.obj [("title", Json.str "Volleyball Pickup"), ("venueId", Json.str "v1")]

set_option maxRecDepth 40000 in
/-- Witness for C1: with the single filtered event's id preloaded in the seen
set, the concrete run notifies nothing and leaves the seen set unchanged. -/
theorem dedup_idempotence_witness :
    (∀ ev ∈ filteredEvents wCfg [Json.arr [wEv]],
      jsonMem (Json.str (eventSid wCfg ev))
        (load_seen (LoadOutcome.value (Json.arr [Json.str (eventSid wCfg wEv)]))) = true) ∧
    (mainRun wCfg (LoadOutcome.value (Json.arr [Json.str (eventSid wCfg wEv)]))
      [Json.arr [wEv]] (fun _ => false) (fun _ => wSigEnv)).state.notifs = [] :=
  ⟨by decide,
   (dedup_idempotence wCfg (LoadOutcome.value (Json.arr [Json.str (eventSid wCfg wEv)]))
      [Json.arr [wEv]] (fun _ => false) (fun _ => wSigEnv) (by decide)).1⟩

theorem processEvent_resultEq (cfg : RunCfg) (tf tf' : Nat → Bool) (se : Nat → SignupEnv)
    (ev : Json) (st st' : RunState)
    (hseen : st.seen = st'.seen) (hnot : st.notifs = st'.notifs)
    (hnew : st.newFound = st'.newFound) :
    (processEvent cfg tf se st ev).seen = (processEvent cfg tf' se st' ev).seen ∧
    (processEvent cfg tf se st ev).notifs = (processEvent cfg tf' se st' ev).notifs ∧
    (processEvent cfg tf se st ev).newFound = (processEvent cfg tf' se st' ev).newFound := by
  rw [processEvent, processEvent]
  rw [hseen]
  by_cases hmem : jsonMem
      (Json.str (stable_id [event_summary ev, event_url cfg.discoverUrl ev]))
      st'.seen = true
  · simp only [hmem, if_true]
    exact ⟨hseen, hnot, hnew⟩
  · simp only [Bool.not_eq_true] at hmem
    simp only [hmem, Bool.false_eq_true, if_false]
    by_cases hauto : cfg.autoSignup
    · simp only [hauto, if_true, runNotify, hseen, hnot, hnew]
      split <;> simp
    · simp [hauto, runNotify, hseen, hnot, hnew]

theorem foldl_processEvent_resultEq (cfg : RunCfg) (tf tf' : Nat → Bool)
    (se : Nat → SignupEnv) (evs : List Json) (st st' : RunState)
    (hseen : st.seen = st'.seen) (hnot : st.notifs = st'.notifs)
    (hnew : st.newFound = st'.newFound) :
    (evs.foldl (processEvent cfg tf se) st).seen =
      (evs.foldl (processEvent cfg tf' se) st').seen ∧
    (evs.foldl (processEvent cfg tf se) st).notifs =
      (evs.foldl (processEvent cfg tf' se) st').notifs ∧
    (evs.foldl (processEvent cfg tf se) st).newFound =
      (evs.foldl (processEvent cfg tf' se) st').newFound := by
  induction evs generalizing st st' with
  | nil => exact ⟨hseen, hnot, hnew⟩
  | cons ev t ih =>
    rw [List.foldl_cons, List.foldl_cons]
    obtain ⟨h1, h2, h3⟩ := processEvent_resultEq cfg tf tf' se ev st st' hseen hnot hnew
    exact ih _ _ h1 h2 h3

theorem processEvent_seen_mono (cfg : RunCfg) (tf : Nat → Bool) (se : Nat → SignupEnv)
    (st : RunState) (ev : Json) (x : Json)
    (h : jsonMem x st.seen = true) :
    jsonMem x (processEvent cfg tf se st ev).seen = true := by
  rw [processEvent]
  by_cases hmem : jsonMem
      (Json.str (stable_id [event_summary ev, event_url cfg.discoverUrl ev]))
      st.seen = true
  · simp only [hmem, if_true]
    exact h
  · simp only [Bool.not_eq_true] at hmem
    simp only [hmem, Bool.false_eq_true, if_false, runNotify]
    by_cases hauto : cfg.autoSignup
    · simp only [hauto, if_true]
      split <;> simp [jsonMem_append, h]
    · simp [hauto, jsonMem_append, h]

theorem processEvent_adds_sid (cfg : RunCfg) (tf : Nat → Bool) (se : Nat → SignupEnv)
    (st : RunState) (ev : Json) :
    jsonMem (Json.str (eventSid cfg ev)) (processEvent cfg tf se st ev).seen = true := by
  rw [eventSid, processEvent]
  by_cases hmem : jsonMem
      (Json.str (stable_id [event_summary ev, event_url cfg.discoverUrl ev]))
      st.seen = true
  · simp only [hmem, if_true]
  · simp only [Bool.not_eq_true] at hmem
    simp only [hmem, Bool.false_eq_true, if_false, runNotify]
    have hself : jsonMem
        (Json.str (stable_id [event_summary ev, event_url cfg.discoverUrl ev]))
        [Json.str (stable_id [event_summary ev, event_url cfg.discoverUrl ev])] = true := by
      simp [jsonMem, jsonBeq]
    by_cases hauto : cfg.autoSignup
    · simp only [hauto, if_true]
      split <;> simp [jsonMem_append, hself]
    · simp [hauto, jsonMem_append, hself]

theorem foldl_seen_mono (cfg : RunCfg) (tf : Nat → Bool) (se : Nat → SignupEnv)
    (evs : List Json) (st : RunState) (x : Json)
    (h : jsonMem x st.seen = true) :
    jsonMem x (evs.foldl (processEvent cfg tf se) st).seen = true := by
  induction evs generalizing st with
  | nil => exact h
  | cons ev t ih =>
    rw [List.foldl_cons]
    exact ih _ (processEvent_seen_mono cfg tf se st ev x h)

theorem foldl_contains_sid (cfg : RunCfg) (tf : Nat → Bool) (se : Nat → SignupEnv)
    (evs : List Json) (st : RunState) (ev : Json) (hev : ev ∈ evs) :
    jsonMem (Json.str (eventSid cfg ev))
      ((evs.foldl (processEvent cfg tf se) st).seen) = true := by
  induction evs generalizing st with
  | nil => cases hev
  | cons a t ih =>
    rw [List.foldl_cons]
    rcases List.mem_cons.mp hev with rfl | hmem
    · exact foldl_seen_mono cfg tf se t _ _ (processEvent_adds_sid cfg tf se st ev)
    · exact ih _ hmem

/-- C9 (notification fail-soft): `notify` is a total function of the
transport outcome — the exception a failing send raises is caught inside it —
and it writes the message to the console log before attempting the send; the
seen set, the dispatched messages, and the new-event count of a run do not
depend on the transport outcomes (a transport failure aborts nothing); and
every filtered event's id is in the seen set that is saved at the end of the
run, whatever the transport does. -/
theorem notification_fail_soft :
    (∀ (fail : Bool) (msg : String), ∃ rest, notify fail msg = msg :: rest) ∧
    (∀ (cfg : RunCfg) (load : LoadOutcome) (payloads : List Json)
       (tf tf' : Nat → Bool) (se : Nat → SignupEnv),
      (mainRun cfg load payloads tf se).state.seen =
        (mainRun cfg load payloads tf' se).state.seen ∧
      (mainRun cfg load payloads tf se).state.notifs =
        (mainRun cfg load payloads tf' se).state.notifs ∧
      (mainRun cfg load payloads tf se).state.newFound =
        (mainRun cfg load payloads tf' se).state.newFound) ∧
    (∀ (cfg : RunCfg) (load : LoadOutcome) (payloads : List Json)
       (tf : Nat → Bool) (se : Nat → SignupEnv) (ev : Json),
      ev ∈ filteredEvents cfg payloads →
      jsonMem (Json.str (eventSid cfg ev))
        (mainRun cfg load payloads tf se).state.seen = true) := by
  refine ⟨?_, ?_, ?_⟩
  · intro fail msg
    exact ⟨_, rfl⟩
  · intro cfg load payloads tf tf' se
    exact foldl_processEvent_resultEq cfg tf tf' se _ _ _ rfl rfl rfl
  · intro cfg load payloads tf se ev hev
    exact foldl_contains_sid cfg tf se _ _ ev hev

set_option maxRecDepth 40000 in
/-- Witness for C9: in a concrete run whose only transport send fails, the
filtered event's id is nevertheless in the final seen set. -/
theorem notification_fail_soft_witness :
    wEv ∈ filteredEvents wCfg [Json.arr [wEv]] ∧
    jsonMem (Json.str (eventSid wCfg wEv))
      (mainRun wCfg LoadOutcome.absent [Json.arr [wEv]]
        (fun _ => true) (fun _ => wSigEnv)).state.seen = true :=
  ⟨by decide,
   notification_fail_soft.2.2 wCfg LoadOutcome.absent [Json.arr [wEv]]
     (fun _ => true) (fun _ => wSigEnv) wEv (by decide)⟩

end Volo
